import Mathlib

/-!
Shallow embedding of the redisStreamEventStore repository: the account
aggregate (account.js), the event-store client built on Redis streams
(eventStoreClient.js), the account service (accountService.js), and the
MongoDB projector (accountProjector.js).  Machine integers are modelled as
`Int`/`Nat`; Redis stream timestamps as `Nat` assigned in strictly
increasing order; the Redis key-value namespace as `String → Option Nat`;
fallible code as `Except`/`Option`.
-/

namespace RedisES

/-- An event as serialized onto the stream: `id`, `version`, `type`,
optional `amount`.  The `timestamp` field is absent from the serialized
payload (it is 0 there) and is attached by `ELC.get` / the read-group
reader from the Redis entry id. -/
structure Event where
  id : String
  version : Nat
  type : String
  amount : Option Int := none
  timestamp : Nat := 0
  deriving DecidableEq, Repr

/-- The account aggregate (account.js): `constructor(id, version=0,
timestamp=0)` also sets `funds = 0`. -/
structure Account where
  id : String
  version : Nat := 0
  timestamp : Nat := 0
  funds : Int := 0
  deriving DecidableEq, Repr

/-- Error kinds thrown by the aggregate and the service (the source
throws `Error` with distinct messages; the spec names them
`InvalidAmount`, `InsufficientFunds`, `NotFound`, `Conflict`). -/
inductive SvcErr where
  | invalidAmount
  | insufficientFunds
  | notFound
  | conflict
  deriving DecidableEq, Repr

/-- `Account.deposit` (account.js): throw on `amount <= 0`, else
`this.funds += amount`. -/
def Account.deposit (self : Account) (amount : Int) : Except SvcErr Account :=
  if amount ≤ 0 then .error .invalidAmount
  else .ok { self with funds := self.funds + amount }

/-- `Account.withdraw` (account.js): throw on `amount <= 0`, throw on
`this.funds - amount < 0`, else `this.funds -= amount`. -/
def Account.withdraw (self : Account) (amount : Int) : Except SvcErr Account :=
  if amount ≤ 0 then .error .invalidAmount
  else if self.funds - amount < 0 then .error .insufficientFunds
  else .ok { self with funds := self.funds - amount }

/-- One iteration of the loop in `Account.rehydrate` (account.js): apply
the event only when `event.id === this.id && event.timestamp !==
this.timestamp`; then set version/timestamp and, when the event carries an
amount, switch on the type (`deposit` adds, `withdraw` subtracts, default
does nothing). -/
def Account.applyEvent (self : Account) (e : Event) : Account :=
  if e.id = self.id ∧ e.timestamp ≠ self.timestamp then
    let s := { self with version := e.version, timestamp := e.timestamp }
    match e.amount with
    | some a =>
        if e.type = "deposit" then { s with funds := s.funds + a }
        else if e.type = "withdraw" then { s with funds := s.funds - a }
        else s
    | none => s
  else self

/-- `Account.rehydrate` (account.js): fold the event list left to right
into the aggregate. -/
def Account.rehydrate (self : Account) (events : List Event) : Account :=
  events.foldl Account.applyEvent self

/-- `Account.toObject` (account.js). -/
def Account.toObject (self : Account) : String × Nat × Nat × Int :=
  (self.id, self.version, self.timestamp, self.funds)

/-- State of the Redis backend as seen by `EventStoreClient`: the
key-value namespace holding the per-account version keys, and the single
stream `accountStream` as an ordered list of (entry id, payload) pairs.
Entry ids (timestamps) are assigned by the log at append time. -/
structure LogState where
  kv : String → Option Nat
  stream : List (Nat × Event)

/-- Fresh Redis state: no keys, empty stream. -/
def initState : LogState :=
  { kv := fun _ => none, stream := [] }

/-- Timestamp the log assigns to the next appended entry (Redis ids are
strictly increasing; modelled as `length + 1` so they are positive and
distinct from the aggregate's initial `timestamp = 0`). -/
def nextTs (s : LogState) : Nat :=
  s.stream.length + 1

namespace ELC

/-- The success path of `EventStoreClient.publish` (eventStoreClient.js):
`event.version += 1`, then the MULTI transaction `incr(event.id)` (an
absent key counts as 0, so the key becomes its old value plus one) and
`xadd(stream, '*', 'event', JSON.stringify(event))`.  The `exec` replies
are `[incrReply, xaddReply]`, i.e. the new key value and the assigned
timestamp. -/
def publishOk (s : LogState) (e : Event) : Option (Nat × Nat) × LogState :=
  let newKey := (s.kv e.id).getD 0 + 1
  let ts := nextTs s
  let stamped := { e with version := e.version + 1 }
  (some (newKey, ts),
   { kv := fun k => if k = e.id then some newKey else s.kv k,
     stream := s.stream ++ [(ts, stamped)] })

/-- `EventStoreClient.publish` (eventStoreClient.js): GET the version key
`event.id`; if the key is absent or `parseInt(result) ===
parseInt(event.version)`, run the INCR+XADD transaction, else resolve
null. -/
def publish (s : LogState) (e : Event) : Option (Nat × Nat) × LogState :=
  match s.kv e.id with
  | some v => if v = e.version then publishOk s e else (none, s)
  | none => publishOk s e

/-- `EventStoreClient.get` (eventStoreClient.js): XREAD all entries with
id strictly after `timestamp`, JSON-parse each payload, keep those whose
`id` matches, and attach the entry id as `obj.timestamp`. -/
def get (s : LogState) (id : String) (timestamp : Nat) : List Event :=
  (s.stream.filter (fun p => timestamp < p.1)).filterMap
    (fun p => if p.2.id = id then some { p.2 with timestamp := p.1 } else none)

/-- `EventStoreClient.addId` (eventStoreClient.js): SADD of `id` into the
set named by `type`; returns 1 (true) iff the member was newly added.
The registry is modelled as the list of members of the `accountId` set. -/
def addId (registry : List String) (id : String) : Bool × List String :=
  if id ∈ registry then (false, registry) else (true, id :: registry)

end ELC

/-- State owned by one `AccountService` process plus the backend it talks
to: the `accountId` set (id registry), the Redis state, and the in-process
aggregate cache `this._accounts`. -/
structure ServiceState where
  registry : List String
  log : LogState
  cache : String → Option Account

namespace AccountService

/-- `AccountService._loadAccount` (accountService.js): take the cached
aggregate if present (else `new Account(id)`), XREAD the events for `id`
after `account.timestamp`; if the id was not cached and no events came
back, throw `Non-existent account id`; else rehydrate and return. -/
def loadAccount (cache : String → Option Account) (log : LogState)
    (id : String) : Except SvcErr Account :=
  let account := (cache id).getD { id := id }
  let inCache := (cache id).isSome
  let events := ELC.get log id account.timestamp
  if ¬inCache ∧ events = [] then .error .notFound
  else .ok (account.rehydrate events)

/-- The create event built by `AccountService.create` (accountService.js
line 35): `{'id' : id, 'version': 0, 'type': 'create'}`. -/
def createEvent (id : String) : Event :=
  { id := id, version := 0, type := "create" }

/-- `AccountService.create` (accountService.js): SADD the id; if not
unique, throw `Conflict`; else publish the create event; on a null
publish result throw `Conflict`; on `[version, timestamp]` build
`new Account(id, version, timestamp)`, insert it into the cache and
return the id. -/
def create (st : ServiceState) (id : String) :
    Except SvcErr String × ServiceState :=
  match ELC.addId st.registry id with
  | (isUnique, registry') =>
    if isUnique then
      match ELC.publish st.log (createEvent id) with
      | (some (v, ts), log') =>
          (.ok id,
           { registry := registry', log := log',
             cache := fun k =>
               if k = id then some { id := id, version := v, timestamp := ts }
               else st.cache k })
      | (none, log') =>
          (.error .conflict, { st with registry := registry', log := log' })
    else
      (.error .conflict, { st with registry := registry' })

/-- The tail of `AccountService.deposit` (accountService.js) after the
aggregate has been loaded: mutate the in-memory aggregate with
`account.deposit(amount)` (exceptions propagate), publish
`{id, version, type deposit, amount}` whose outcome is `pub`; on success
overwrite version/timestamp and rewrite the cache entry, returning
`{id, amount}`; on a null result roll the aggregate back with
`account.withdraw(amount)` and return null.  The returned `Account` is
the aggregate object the cache references. -/
def depositFlow (account : Account) (amount : Int)
    (pub : Option (Nat × Nat)) :
    Except SvcErr (Option (String × Int) × Account) :=
  match account.deposit amount with
  | .error e => .error e
  | .ok acc1 =>
    match pub with
    | some (v, ts) =>
        .ok (some (account.id, amount), { acc1 with version := v, timestamp := ts })
    | none =>
        match acc1.withdraw amount with
        | .error e => .error e
        | .ok acc2 => .ok (none, acc2)

/-- The tail of `AccountService.withdraw` (accountService.js) after the
aggregate has been loaded: mirror image of `depositFlow`, rolling back a
failed publish with `account.deposit(amount)`. -/
def withdrawFlow (account : Account) (amount : Int)
    (pub : Option (Nat × Nat)) :
    Except SvcErr (Option (String × Int) × Account) :=
  match account.withdraw amount with
  | .error e => .error e
  | .ok acc1 =>
    match pub with
    | some (v, ts) =>
        .ok (some (account.id, amount), { acc1 with version := v, timestamp := ts })
    | none =>
        match acc1.deposit amount with
        | .error e => .error e
        | .ok acc2 => .ok (none, acc2)

end AccountService

/-- A view record in the MongoDB collection (accountProjector.js): funds
balance plus the array of event timestamps already applied (`$addToSet`
keeps it duplicate-free). -/
structure ViewRecord where
  funds : Int
  timestamps : List Nat
  deriving DecidableEq, Repr

/-- The view store: documents keyed by account id (`_id`). -/
def ViewStore : Type :=
  String → Option ViewRecord

namespace AccountProjector

/-- Outcome of one MongoDB `updateOne`: a new store, or the duplicate-key
error (code 11000) raised when an upsert's insert collides with an
existing `_id`. -/
inductive UpdateOutcome where
  | ok (store : ViewStore)
  | dupKey

/-- One MongoDB `updateOne(query, value, upsert)` call as issued by
`eventHandler` (accountProjector.js): the query matches the document with
`_id = id` only when `timestamps` does not already contain `ts`; the
value is `$inc funds by d` and `$addToSet timestamps with ts`.  When no
document matches and `upsert` holds, MongoDB inserts a fresh document
built from the query's `_id` equality — which raises error 11000 if a
document with that `_id` already exists (it merely failed the timestamp
clause). -/
def updateOne (store : ViewStore) (id : String) (ts : Nat) (d : Int)
    (upsert : Bool) : UpdateOutcome :=
  match store id with
  | some r =>
      if ts ∈ r.timestamps then
        if upsert then .dupKey else .ok store
      else
        .ok (fun k =>
          if k = id then some { funds := r.funds + d, timestamps := r.timestamps ++ [ts] }
          else store k)
  | none =>
      if upsert then
        .ok (fun k => if k = id then some { funds := d, timestamps := [ts] } else store k)
      else .ok store

/-- The `update` helper (accountProjector.js): `updateOne` with
`upsert = true`, retried once with `upsert = false` on error code
11000. -/
def update (store : ViewStore) (id : String) (ts : Nat) (d : Int) : ViewStore :=
  match updateOne store id ts d true with
  | .ok st => st
  | .dupKey =>
    match updateOne store id ts d false with
    | .ok st => st
    | .dupKey => store

/-- The signed funds delta computed by the switch in `eventHandler`
(accountProjector.js): `create → 0`, `deposit → +amount`, `withdraw →
−amount`; any other type leaves `amount` undefined, in which case the
`$inc` is rejected by the server and the record is untouched (modelled as
`none`). -/
def eventDelta (e : Event) : Option Int :=
  if e.type = "create" then some 0
  else if e.type = "deposit" then e.amount
  else if e.type = "withdraw" then e.amount.map (fun a => -a)
  else none

/-- Effect on the view store of `eventHandler` processing one event of a
delivered batch (accountProjector.js). -/
def handleEvent (store : ViewStore) (e : Event) : ViewStore :=
  match eventDelta e with
  | some d => update store e.id e.timestamp d
  | none => store

end AccountProjector

/-- The events of the stream carrying a given account id, in stream
(timestamp) order. -/
def eventsFor (s : LogState) (id : String) : List Event :=
  (s.stream.filter (fun p => p.2.id = id)).map (fun p => p.2)

/-- The version fields of the stream's events for a given id, in
timestamp order. -/
def versionsFor (s : LogState) (id : String) : List Nat :=
  (eventsFor s id).map Event.version

/-- Precondition on the events `AccountService` hands to `publish`
(accountService.js): `create` publishes `{id, version: 0}` (line 35);
`deposit`/`withdraw` reach `publish` only after `_loadAccount(id)`
succeeded, which requires an event for `id` already on the stream (an
uncached id with zero events throws, and a cached aggregate exists only
after a successful create appended its event). -/
def servicePre (s : LogState) (e : Event) : Prop :=
  if e.type = "create" then e.version = 0
  else eventsFor s e.id ≠ []

/-- Redis states reachable from a fresh backend by `publish` calls issued
by the account service (a failed publish leaves the state unchanged, so
including failing steps loses nothing). -/
inductive Reachable : LogState → Prop where
  | init : Reachable initState
  | step (s : LogState) (e : Event) (h : Reachable s) (hp : servicePre s e) :
      Reachable (ELC.publish s e).2

/-- Inductive invariant of reachable Redis states: for each id the stream
versions are exactly `1, 2, …, n` and the version key holds `n` (absent
when `n = 0`). -/
def Inv (s : LogState) : Prop :=
  ∀ id, versionsFor s id = List.range' 1 (versionsFor s id).length ∧
    s.kv id = (if (versionsFor s id).length = 0 then none
               else some (versionsFor s id).length)

/-- The create event of scenario 1 of the spec's testable properties. -/
def demoCreate : Event :=
  AccountService.createEvent "JohnDoe"

/-- A deposit event carrying the aggregate version after the create. -/
def demoDeposit : Event :=
  { id := "JohnDoe", version := 1, type := "deposit", amount := some 100 }

/-- Backend state after publishing the create event on a fresh backend. -/
def stateOne : LogState :=
  (ELC.publish initState demoCreate).2

/-- Backend state after the create and one deposit. -/
def stateTwo : LogState :=
  (ELC.publish stateOne demoDeposit).2

/-- A deposit event carrying a stale nonzero version, presented to a
backend whose version key is absent. -/
def cexEvent : Event :=
  { id := "JohnDoe", version := 5, type := "deposit", amount := some 10 }

/-- A backend whose version key for JohnDoe holds 0 with an empty
stream. -/
def matchedState : LogState :=
  { kv := fun k => if k = "JohnDoe" then some 0 else none, stream := [] }

/-- A service state in which the version key for JohnDoe holds a value
incompatible with a create event, so publishing a create returns null. -/
def leakState : ServiceState :=
  { registry := [],
    log := { kv := fun k => if k = "JohnDoe" then some 2 else none, stream := [] },
    cache := fun _ => none }

/-- A fresh account service against a fresh backend. -/
def initServiceState : ServiceState :=
  { registry := [], log := initState, cache := fun _ => none }

/-- A view store holding one record with an already-applied timestamp. -/
def demoStore : ViewStore :=
  fun k => if k = "JohnDoe" then some { funds := 100, timestamps := [7] } else none

/-- A deposit event whose timestamp is already recorded on
`demoStore`. -/
def demoViewEvent : Event :=
  { id := "JohnDoe", version := 2, type := "deposit", amount := some 100, timestamp := 7 }

theorem publish_absent (s : LogState) (e : Event) (h : s.kv e.id = none) :
    ELC.publish s e = ELC.publishOk s e := by
  simp [ELC.publish, h]

theorem publish_matched (s : LogState) (e : Event)
    (h : s.kv e.id = some e.version) :
    ELC.publish s e = ELC.publishOk s e := by
  simp [ELC.publish, h]

theorem publish_mismatch (s : LogState) (e : Event) (v : Nat)
    (h : s.kv e.id = some v) (hne : v ≠ e.version) :
    ELC.publish s e = (none, s) := by
  simp [ELC.publish, h, hne]

theorem publishOk_fst (s : LogState) (e : Event) :
    (ELC.publishOk s e).1 = some ((s.kv e.id).getD 0 + 1, nextTs s) := rfl

theorem publishOk_stream (s : LogState) (e : Event) :
    (ELC.publishOk s e).2.stream
      = s.stream ++ [(nextTs s, { e with version := e.version + 1 })] := rfl

theorem kv_publishOk_self (s : LogState) (e : Event) :
    (ELC.publishOk s e).2.kv e.id = some ((s.kv e.id).getD 0 + 1) := by
  simp [ELC.publishOk]

theorem kv_publishOk_other (s : LogState) (e : Event) (id : String)
    (h : id ≠ e.id) :
    (ELC.publishOk s e).2.kv id = s.kv id := by
  simp [ELC.publishOk, h]

theorem versionsFor_publishOk_self (s : LogState) (e : Event) :
    versionsFor (ELC.publishOk s e).2 e.id
      = versionsFor s e.id ++ [e.version + 1] := by
  simp [versionsFor, eventsFor, ELC.publishOk, List.filter_append]

theorem versionsFor_publishOk_other (s : LogState) (e : Event) (id : String)
    (h : id ≠ e.id) :
    versionsFor (ELC.publishOk s e).2 id = versionsFor s id := by
  simp [versionsFor, eventsFor, ELC.publishOk, List.filter_append,
    Ne.symm h]

theorem inv_initState : Inv initState := by
  intro id
  simp [initState, versionsFor, eventsFor]

theorem kv_getD_of_inv (s : LogState) (id : String) (hInv : Inv s) :
    (s.kv id).getD 0 = (versionsFor s id).length := by
  have hk := (hInv id).2
  rcases Nat.eq_zero_or_pos (versionsFor s id).length with h0 | h0
  · rw [h0] at hk ⊢
    simp at hk
    simp [hk]
  · rw [if_neg (Nat.pos_iff_ne_zero.mp h0)] at hk
    simp [hk]

theorem inv_publishOk (s : LogState) (e : Event) (hInv : Inv s)
    (hev : e.version = (versionsFor s e.id).length) :
    Inv (ELC.publishOk s e).2 := by
  intro id
  by_cases hid : id = e.id
  · subst hid
    have hlen := versionsFor_publishOk_self s e
    constructor
    · rw [hlen, (hInv e.id).1, hev]
      rw [List.length_append, List.length_range']
      simp only [List.length_singleton]
      rw [List.range'_1_concat]
      simp [Nat.add_comm]
    · rw [hlen, kv_publishOk_self, kv_getD_of_inv s e.id hInv]
      simp [hev]
  · have hlen := versionsFor_publishOk_other s e id hid
    rw [hlen, kv_publishOk_other s e id hid]
    exact hInv id

theorem publish_ok_cases (s : LogState) (e : Event) (hInv : Inv s)
    (hp : servicePre s e) :
    ELC.publish s e = (none, s) ∨
    (ELC.publish s e = ELC.publishOk s e ∧
      e.version = (versionsFor s e.id).length) := by
  have hk := (hInv e.id).2
  cases hkv : s.kv e.id with
  | none =>
      right
      have hn : (versionsFor s e.id).length = 0 := by
        by_contra hn
        rw [hkv, if_neg hn] at hk
        cases hk
      have hev : e.version = 0 := by
        unfold servicePre at hp
        split at hp
        · exact hp
        · exact absurd (by
            have hnil : versionsFor s e.id = [] :=
              List.eq_nil_of_length_eq_zero hn
            unfold versionsFor at hnil
            exact List.map_eq_nil_iff.mp hnil) hp
      exact ⟨publish_absent s e hkv, by rw [hev, hn]⟩
  | some v =>
      by_cases hve : v = e.version
      · subst hve
        right
        refine ⟨publish_matched s e hkv, ?_⟩
        rw [hkv] at hk
        rcases Nat.eq_zero_or_pos (versionsFor s e.id).length with h0 | h0
        · rw [h0, if_pos rfl] at hk
          cases hk
        · rw [if_neg (Nat.pos_iff_ne_zero.mp h0)] at hk
          exact (Option.some.injEq _ _ ▸ hk)
      · exact Or.inl (publish_mismatch s e v hkv hve)

theorem inv_step (s : LogState) (e : Event) (hInv : Inv s)
    (hp : servicePre s e) :
    Inv (ELC.publish s e).2 := by
  rcases publish_ok_cases s e hInv hp with hfail | ⟨hok, hev⟩
  · rw [hfail]
    exact hInv
  · rw [hok]
    exact inv_publishOk s e hInv hev

theorem reachable_inv (s : LogState) (h : Reachable s) : Inv s := by
  induction h with
  | init => exact inv_initState
  | step s e _ hp ih => exact inv_step s e ih hp

/-- C2: in every backend state reachable by service-issued publishes, the
version fields of the stream's events for each account id, in timestamp
order, form the contiguous sequence `1, 2, …, n`; moreover every
successful publish there increments the id's version key by exactly one
(from `n` to `n + 1`) and stamps the appended event with that new
value. -/
theorem publish_versions_contiguous (s : LogState) (h : Reachable s) :
    (∀ id, versionsFor s id = List.range' 1 (versionsFor s id).length) ∧
    (∀ e v ts, servicePre s e → (ELC.publish s e).1 = some (v, ts) →
      v = (versionsFor s e.id).length + 1 ∧
      (ELC.publish s e).2.kv e.id = some v ∧
      versionsFor (ELC.publish s e).2 e.id = versionsFor s e.id ++ [v]) := by
  have hInv := reachable_inv s h
  refine ⟨fun id => (hInv id).1, ?_⟩
  intro e v ts hp hpub
  rcases publish_ok_cases s e hInv hp with hfail | ⟨hok, hev⟩
  · rw [hfail] at hpub
    cases hpub
  · rw [hok] at hpub ⊢
    rw [publishOk_fst] at hpub
    have hgd := kv_getD_of_inv s e.id hInv
    have hv : (s.kv e.id).getD 0 + 1 = v := by
      have := (Prod.mk.injEq _ _ _ _).mp (Option.some.inj hpub)
      exact this.1
    refine ⟨by omega, ?_, ?_⟩
    · rw [kv_publishOk_self, hv]
    · rw [versionsFor_publishOk_self]
      have : e.version + 1 = v := by omega
      rw [this]

/-- Witness for C2 at a concrete two-event reachable history: a create
followed by a deposit for JohnDoe yields stream versions `[1, 2]`. -/
theorem publish_versions_contiguous_witness :
    versionsFor stateTwo "JohnDoe"
      = List.range' 1 (versionsFor stateTwo "JohnDoe").length := by
  have h1 : Reachable stateOne :=
    Reachable.step initState demoCreate Reachable.init
      (by unfold servicePre demoCreate AccountService.createEvent; decide)
  have h2 : Reachable stateTwo :=
    Reachable.step stateOne demoDeposit h1
      (by unfold servicePre
          decide)
  exact (publish_versions_contiguous stateTwo h2).1 "JohnDoe"

/-- C4: `rehydrate` is a left fold of `applyEvent`; one step leaves the
aggregate untouched exactly when the event's id differs from the
aggregate's or its timestamp equals the aggregate's current timestamp,
and otherwise sets version and timestamp from the event and shifts funds
by `+amount` for type deposit, `−amount` for type withdraw, and by
nothing for any other type or for an event carrying no amount (so a
create event advances version and timestamp only). -/
theorem rehydrate_fold_spec (self : Account) (e : Event) (es : List Event) :
    Account.rehydrate self [] = self ∧
    Account.rehydrate self (e :: es)
      = Account.rehydrate (Account.applyEvent self e) es ∧
    Account.applyEvent self e
      = (if e.id = self.id ∧ e.timestamp ≠ self.timestamp then
          { self with
              version := e.version
              timestamp := e.timestamp
              funds := self.funds +
                (match e.amount with
                 | some a =>
                     if e.type = "deposit" then a
                     else if e.type = "withdraw" then -a
                     else 0
                 | none => 0) }
        else self) := by
  refine ⟨rfl, rfl, ?_⟩
  unfold Account.applyEvent
  split
  · cases e.amount with
    | some a => split_ifs <;> simp [Int.sub_eq_add_neg]
    | none => simp
  · rfl

/-- C7: `Account.deposit` fails with InvalidAmount exactly when the
amount is non-positive and otherwise adds the amount to funds;
`Account.withdraw` fails with InvalidAmount exactly when the amount is
non-positive, fails with InsufficientFunds exactly when the amount is
positive but exceeds the funds, and otherwise subtracts the amount.  In
the `Except` embedding a failing call returns no aggregate, so the funds
are unchanged in every failing case. -/
theorem deposit_withdraw_spec (self : Account) (amount : Int) :
    (self.deposit amount = .error .invalidAmount ↔ amount ≤ 0) ∧
    (0 < amount →
      self.deposit amount = .ok { self with funds := self.funds + amount }) ∧
    (self.withdraw amount = .error .invalidAmount ↔ amount ≤ 0) ∧
    (self.withdraw amount = .error .insufficientFunds ↔
      0 < amount ∧ self.funds - amount < 0) ∧
    (0 < amount → 0 ≤ self.funds - amount →
      self.withdraw amount = .ok { self with funds := self.funds - amount }) := by
  unfold Account.deposit Account.withdraw
  refine ⟨?_, ?_, ?_, ?_, ?_⟩ <;> split_ifs <;> simp_all

/-- Witness for C7: deposit of 100 on a fresh JohnDoe aggregate yields
funds 100, and withdraw of 40 on funds 100 yields funds 60. -/
theorem deposit_withdraw_spec_witness :
    Account.deposit { id := "JohnDoe" } 100
      = .ok { id := "JohnDoe", funds := (0 : Int) + 100 } ∧
    Account.withdraw { id := "JohnDoe", funds := 100 } 40
      = .ok { id := "JohnDoe", funds := (100 : Int) - 40 } :=
  ⟨(deposit_withdraw_spec { id := "JohnDoe" } 100).2.1 (by decide),
   (deposit_withdraw_spec { id := "JohnDoe", funds := 100 } 40).2.2.2.2
     (by decide) (by decide)⟩

/-- C6: when the version key for the event's id is absent, `publish`
proceeds regardless of the event's version: it sets the key to 1, appends
the event (stamped with `version + 1`) and returns `[1, ts]`; it never
returns null on an absent key. -/
theorem publish_absent_key (s : LogState) (e : Event)
    (h : s.kv e.id = none) :
    (ELC.publish s e).1 = some (1, nextTs s) ∧
    (ELC.publish s e).2.stream
      = s.stream ++ [(nextTs s, { e with version := e.version + 1 })] ∧
    (ELC.publish s e).2.kv e.id = some 1 := by
  rw [publish_absent s e h]
  refine ⟨?_, publishOk_stream s e, ?_⟩
  · rw [publishOk_fst, h]
    rfl
  · rw [kv_publishOk_self, h]
    rfl

/-- Witness for C6: a stale-version deposit against a fresh backend (key
absent) is accepted and appended. -/
theorem publish_absent_key_witness :
    (ELC.publish initState cexEvent).1 = some (1, nextTs initState) ∧
    (ELC.publish initState cexEvent).2.stream
      = initState.stream
        ++ [(nextTs initState, { cexEvent with version := cexEvent.version + 1 })] ∧
    (ELC.publish initState cexEvent).2.kv cexEvent.id = some 1 :=
  publish_absent_key initState cexEvent rfl

/-- C1 counterexample: on a backend with no version key, publishing an
event carrying version 5 appends the event stamped with version 6 while
the key is incremented to 1 and the returned new-version reply is 1: the
appended event's version is not the incremented key value, refuting the
claim as stated at this input. -/
theorem publish_stamp_mismatch :
    (ELC.publish initState cexEvent).1 = some (1, 1) ∧
    ((ELC.publish initState cexEvent).2.stream.map (fun p => p.2.version))
      = [6] ∧
    (6 : Nat) ≠ 1 := by
  refine ⟨rfl, ?_, by decide⟩
  decide

/-- C1 amended: `publish` reads the version key for the event's id; if
the key exists with a value different from the event's version it appends
nothing and returns null; if the key exists with the event's version it
increments the key and appends the event stamped with `version + 1`
(equal to the new key value), returning that value with the assigned
timestamp; if the key is absent it sets the key to 1 and appends the
event stamped with `version + 1` (equal to the key's new value only when
the event's version is 0), returning `[1, ts]`. -/
theorem publish_protocol_spec (s : LogState) (e : Event) :
    (∀ v, s.kv e.id = some v → v ≠ e.version → ELC.publish s e = (none, s)) ∧
    (s.kv e.id = some e.version →
      (ELC.publish s e).1 = some (e.version + 1, nextTs s) ∧
      (ELC.publish s e).2.stream
        = s.stream ++ [(nextTs s, { e with version := e.version + 1 })] ∧
      (ELC.publish s e).2.kv e.id = some (e.version + 1)) ∧
    (s.kv e.id = none →
      (ELC.publish s e).1 = some (1, nextTs s) ∧
      (ELC.publish s e).2.stream
        = s.stream ++ [(nextTs s, { e with version := e.version + 1 })] ∧
      (ELC.publish s e).2.kv e.id = some 1) := by
  refine ⟨fun v hv hne => publish_mismatch s e v hv hne, ?_, ?_⟩
  · intro h
    rw [publish_matched s e h]
    refine ⟨?_, publishOk_stream s e, ?_⟩
    · rw [publishOk_fst, h]
      rfl
    · rw [kv_publishOk_self, h]
      rfl
  · intro h
    rw [publish_absent s e h]
    refine ⟨?_, publishOk_stream s e, ?_⟩
    · rw [publishOk_fst, h]
      rfl
    · rw [kv_publishOk_self, h]
      rfl

/-- Witness for the amended C1: with the version key holding 0 and a
create event of version 0, publish succeeds with new version 1; and with
a key holding 0 and a version-5 event, publish returns null leaving the
state alone. -/
theorem publish_protocol_spec_witness :
    (ELC.publish matchedState demoCreate).1 = some (0 + 1, nextTs matchedState) ∧
    ELC.publish matchedState cexEvent = (none, matchedState) :=
  ⟨((publish_protocol_spec matchedState demoCreate).2.1 rfl).1,
   (publish_protocol_spec matchedState cexEvent).1 0 rfl (by decide)⟩

/-- C3: when the in-memory mutation succeeded but the publish returned
null, the deposit flow rolls the aggregate back with a withdraw of the
same amount (and the withdraw flow with a deposit of the same amount),
so the aggregate the cache references is exactly its pre-command state
and the call returns null instead of raising.  The deposit case needs the
spec invariant `funds ≥ 0`, since the compensating withdraw would
otherwise hit its overdraft guard. -/
theorem compensation_spec (account : Account) (amount : Int) :
    (0 < amount → 0 ≤ account.funds →
      AccountService.depositFlow account amount none = .ok (none, account)) ∧
    (0 < amount → 0 ≤ account.funds - amount →
      AccountService.withdrawFlow account amount none = .ok (none, account)) := by
  constructor
  · intro h1 h2
    have hna : ¬ amount ≤ 0 := by omega
    simp only [AccountService.depositFlow, Account.deposit, Account.withdraw,
      if_neg hna]
    rw [if_neg (show ¬ account.funds + amount - amount < 0 by omega)]
    have hf : account.funds + amount - amount = account.funds := by omega
    rw [hf]
  · intro h1 h2
    have hna : ¬ amount ≤ 0 := by omega
    have hnf : ¬ account.funds - amount < 0 := by omega
    simp only [AccountService.withdrawFlow, Account.withdraw, Account.deposit,
      if_neg hna, if_neg hnf]
    have hf : account.funds - amount + amount = account.funds := by omega
    rw [hf]

/-- Witness for C3: a failed publish of a 100 deposit on a fresh JohnDoe
aggregate and of a 40 withdraw on a funds-100 aggregate each compensate
back to the original aggregate and return null. -/
theorem compensation_spec_witness :
    AccountService.depositFlow { id := "JohnDoe" } 100 none
      = .ok (none, { id := "JohnDoe" }) ∧
    AccountService.withdrawFlow { id := "JohnDoe", funds := 100 } 40 none
      = .ok (none, { id := "JohnDoe", funds := 100 }) :=
  ⟨(compensation_spec { id := "JohnDoe" } 100).1 (by decide) (by decide),
   (compensation_spec { id := "JohnDoe", funds := 100 } 40).2
     (by decide) (by decide)⟩

theorem update_applied (store : ViewStore) (id : String) (ts : Nat) (d : Int)
    (r : ViewRecord) (hr : store id = some r) (hts : ts ∈ r.timestamps) :
    AccountProjector.update store id ts d = store := by
  simp [AccountProjector.update, AccountProjector.updateOne, hr, hts]

theorem update_mem (store : ViewStore) (id : String) (ts : Nat) (d : Int) :
    ∃ r, AccountProjector.update store id ts d id = some r ∧
      ts ∈ r.timestamps := by
  unfold AccountProjector.update AccountProjector.updateOne
  cases hr : store id with
  | none => simp
  | some r =>
      by_cases hts : ts ∈ r.timestamps
      · simp [hts, hr]
      · simp [hts]

/-- C5: the projector's per-event handler is idempotent on the view
store: processing the same event a second time changes nothing, because
the conditional update matches the record only when its timestamps array
does not yet contain the event's timestamp (a re-delivery makes the
upsert raise the duplicate-key error, and the retry without upsert
matches no document). -/
theorem projector_idempotent (store : ViewStore) (e : Event) :
    AccountProjector.handleEvent (AccountProjector.handleEvent store e) e
      = AccountProjector.handleEvent store e ∧
    (∀ r, store e.id = some r → e.timestamp ∈ r.timestamps →
      AccountProjector.handleEvent store e = store) := by
  constructor
  · unfold AccountProjector.handleEvent
    cases hd : AccountProjector.eventDelta e with
    | none => rfl
    | some d =>
        obtain ⟨r, hr, hts⟩ := update_mem store e.id e.timestamp d
        exact update_applied _ e.id e.timestamp d r hr hts
  · intro r hr hts
    unfold AccountProjector.handleEvent
    cases AccountProjector.eventDelta e with
    | none => rfl
    | some d => exact update_applied store e.id e.timestamp d r hr hts

/-- Witness for C5: re-delivering a deposit whose timestamp 7 is already
recorded on the JohnDoe view record leaves the store unchanged. -/
theorem projector_idempotent_witness :
    AccountProjector.handleEvent demoStore demoViewEvent = demoStore :=
  (projector_idempotent demoStore demoViewEvent).2
    { funds := 100, timestamps := [7] } (by simp [demoStore, demoViewEvent])
    (by simp [demoViewEvent])

/-- C8: `_loadAccount` starts from the cached aggregate when present and
else from `new Account(id)` (version 0, timestamp 0); it reads the stream
for `id` after the aggregate's timestamp; it throws NotFound exactly when
the id was uncached and the read returned no events, and otherwise folds
the events into the aggregate and returns it. -/
theorem loadAccount_spec (cache : String → Option Account) (log : LogState)
    (id : String) :
    (cache id = none → ELC.get log id 0 = [] →
      AccountService.loadAccount cache log id = .error .notFound) ∧
    (cache id = none → ELC.get log id 0 ≠ [] →
      AccountService.loadAccount cache log id
        = .ok (Account.rehydrate { id := id } (ELC.get log id 0))) ∧
    (∀ a, cache id = some a →
      AccountService.loadAccount cache log id
        = .ok (Account.rehydrate a (ELC.get log id a.timestamp))) := by
  refine ⟨?_, ?_, ?_⟩
  · intro hc he
    simp [AccountService.loadAccount, hc, he]
  · intro hc he
    simp [AccountService.loadAccount, hc, he]
  · intro a hc
    simp [AccountService.loadAccount, hc]

/-- Witness for C8: loading an uncached id against an empty stream throws
NotFound, and loading it after the create event rehydrates from that
event. -/
theorem loadAccount_spec_witness :
    AccountService.loadAccount (fun _ => none) initState "JohnDoe"
      = .error .notFound ∧
    AccountService.loadAccount (fun _ => none) stateOne "JohnDoe"
      = .ok (Account.rehydrate { id := "JohnDoe" }
          (ELC.get stateOne "JohnDoe" 0)) :=
  ⟨(loadAccount_spec (fun _ => none) initState "JohnDoe").1 rfl rfl,
   (loadAccount_spec (fun _ => none) stateOne "JohnDoe").2.1 rfl (by decide)⟩

/-- C9: `create` throws Conflict when the SADD reports the id as already
a member, throws Conflict as well when the publish of the version-0
create event returns null, and on a `[version, timestamp]` reply builds
`new Account(id, version, timestamp)`, caches it and returns the id. -/
theorem create_spec (st : ServiceState) (id : String) :
    (id ∈ st.registry →
      (AccountService.create st id).1 = .error .conflict ∧
      (AccountService.create st id).2 = st) ∧
    (id ∉ st.registry →
      (ELC.publish st.log (AccountService.createEvent id)).1 = none →
      (AccountService.create st id).1 = .error .conflict) ∧
    (∀ v ts, id ∉ st.registry →
      (ELC.publish st.log (AccountService.createEvent id)).1 = some (v, ts) →
      (AccountService.create st id).1 = .ok id ∧
      (AccountService.create st id).2.cache id
        = some { id := id, version := v, timestamp := ts }) := by
  refine ⟨?_, ?_, ?_⟩
  · intro h
    constructor
    · simp [AccountService.create, ELC.addId, h]
    · simp [AccountService.create, ELC.addId, h]
  · intro h hpub
    cases hp2 : ELC.publish st.log (AccountService.createEvent id) with
    | mk fst snd =>
      have hf : fst = none := by rw [hp2] at hpub; exact hpub
      subst hf
      simp [AccountService.create, ELC.addId, h, hp2]
  · intro v ts h hpub
    cases hp2 : ELC.publish st.log (AccountService.createEvent id) with
    | mk fst snd =>
      have hf : fst = some (v, ts) := by rw [hp2] at hpub; exact hpub
      subst hf
      constructor
      · simp [AccountService.create, ELC.addId, h, hp2]
      · simp [AccountService.create, ELC.addId, h, hp2]

/-- Witness for C9: creating JohnDoe on a fresh service succeeds with the
cached aggregate at version 1 and the first assigned timestamp. -/
theorem create_spec_witness :
    (AccountService.create initServiceState "JohnDoe").1 = .ok "JohnDoe" ∧
    (AccountService.create initServiceState "JohnDoe").2.cache "JohnDoe"
      = some { id := "JohnDoe", version := 1, timestamp := 1 } :=
  (create_spec initServiceState "JohnDoe").2.2 1 1 (by decide) (by decide)

theorem publish_none_state (s : LogState) (e : Event)
    (h : (ELC.publish s e).1 = none) :
    (ELC.publish s e).2 = s := by
  cases hkv : s.kv e.id with
  | none =>
      rw [publish_absent s e hkv, publishOk_fst] at h
      cases h
  | some v =>
      by_cases hv : v = e.version
      · subst hv
        rw [publish_matched s e hkv, publishOk_fst] at h
        cases h
      · rw [publish_mismatch s e v hkv hv]

/-- C10: `create` is not atomic with the id registry: when the SADD
succeeded but the publish of the create event returned null, the id stays
in the registry and no event was appended, so every later create of the
same id fails with Conflict even though the stream holds no create event
for it. -/
theorem create_registry_leak (st : ServiceState) (id : String)
    (h1 : id ∉ st.registry)
    (h2 : (ELC.publish st.log (AccountService.createEvent id)).1 = none)
    (h3 : eventsFor st.log id = []) :
    (AccountService.create st id).1 = .error .conflict ∧
    id ∈ (AccountService.create st id).2.registry ∧
    eventsFor (AccountService.create st id).2.log id = [] ∧
    (AccountService.create (AccountService.create st id).2 id).1
      = .error .conflict ∧
    eventsFor (AccountService.create (AccountService.create st id).2 id).2.log
      id = [] := by
  have hst := publish_none_state st.log (AccountService.createEvent id) h2
  cases hp2 : ELC.publish st.log (AccountService.createEvent id) with
  | mk fst snd =>
    have hf : fst = none := by rw [hp2] at h2; exact h2
    subst hf
    have hs : snd = st.log := by rw [hp2] at hst; exact hst
    subst hs
    have hc1 : AccountService.create st id
        = (.error .conflict,
           { st with registry := id :: st.registry, log := st.log }) := by
      simp [AccountService.create, ELC.addId, h1, hp2]
    rw [hc1]
    refine ⟨rfl, List.mem_cons_self _ _, h3, ?_, ?_⟩
    · simp [AccountService.create, ELC.addId]
    · simp [AccountService.create, ELC.addId]
      exact h3

/-- Witness for C10: against a backend whose JohnDoe version key holds 2
(so the create publish loses), creating JohnDoe registers the id, appends
nothing, and a second create also fails with Conflict. -/
theorem create_registry_leak_witness :
    (AccountService.create leakState "JohnDoe").1 = .error .conflict ∧
    "JohnDoe" ∈ (AccountService.create leakState "JohnDoe").2.registry ∧
    eventsFor (AccountService.create leakState "JohnDoe").2.log "JohnDoe"
      = [] ∧
    (AccountService.create (AccountService.create leakState "JohnDoe").2
      "JohnDoe").1 = .error .conflict ∧
    eventsFor (AccountService.create
      (AccountService.create leakState "JohnDoe").2 "JohnDoe").2.log "JohnDoe"
      = [] :=
  create_registry_leak leakState "JohnDoe" (by decide) (by decide) rfl

end RedisES
